import Mathlib

/-!
Verification of the batch distance-matrix request engine
(`src/Sign2.py`, `src/Test.py`, `src/Polaris.py`) against its
natural-language specification.

The Python scripts are shallowly embedded: pure computations become Lean
functions, the HTTP layer is abstracted as an explicit response function
passed to the embedded code, and fallible file writes return `Except`.
-/

namespace DM

/-- JSON values as produced by Python's `json` module after parsing a
response body (`resp.json()` / `await response.json()`).  Numbers are
modelled as integers, which covers the integer `value` fields of the
distance-matrix API; floats do not occur in the claims. -/
inductive Json where
  | null : Json
  | bool (b : Bool) : Json
  | str (s : String) : Json
  | num (n : Int) : Json
  | arr (xs : List Json) : Json
  | obj (fields : List (String × Json)) : Json
deriving Inhabited

/-- Python `d.get(key, default)` on a parsed-JSON value: dictionary lookup
with a default; on a non-dict the default is returned. -/
def Json.dGet (j : Json) (key : String) (d : Json) : Json :=
  match j with
  | .obj fields => ((fields.find? (fun kv => kv.1 == key)).map (fun kv => kv.2)).getD d
  | _ => d

/-- Python `d[key]` subscription: `some` value iff `j` is a dict containing
`key` (a `KeyError`/`TypeError` becomes `none`). -/
def Json.subscr? (j : Json) (key : String) : Option Json :=
  match j with
  | .obj fields => (fields.find? (fun kv => kv.1 == key)).map (fun kv => kv.2)
  | _ => none

/-- Python `l[i]` indexing for non-negative `i`: `some` value iff `j` is a
list with more than `i` elements (an `IndexError`/`TypeError` becomes
`none`). -/
def Json.idx? (j : Json) (i : Nat) : Option Json :=
  match j with
  | .arr xs => xs.get? i
  | _ => none

/-- The list of elements of a JSON array (anything else: `[]`).  Used to
model Python `len(...)` / iteration over a value obtained with a `[]`
default. -/
def Json.asArr (j : Json) : List Json :=
  match j with
  | .arr xs => xs
  | _ => []

/-- Python `x == "s"` for a parsed-JSON `x` and a string literal: true iff
`x` is that very string. -/
def Json.isStrEq (j : Json) (s : String) : Bool :=
  match j with
  | .str t => t == s
  | _ => false

/-- A single-quote character, written via its code point. -/
def sq : String := (Char.ofNat 39).toString

/-- Python `repr` of a list of strings, e.g. `['1', '2']` — the rendering
used by an f-string for a `list` of `str` (quote selection for exotic
strings is not modelled; all ids rendered in the scripts are digit
strings). -/
def pyReprStrListGo : List String → String
  | [] => ""
  | [x] => sq ++ x ++ sq
  | x :: y :: xs => sq ++ x ++ sq ++ ", " ++ pyReprStrListGo (y :: xs)

def pyReprStrList (xs : List String) : String :=
  "[" ++ pyReprStrListGo xs ++ "]"

/-- JSON string quoting as done by `json.dumps` (ASCII escapes for the
quote, backslash and control characters; non-ASCII escaping is not needed
by any claim and is rendered verbatim here). -/
def dumpsStr (s : String) : String :=
  "\"" ++ String.join (s.data.map (fun c =>
    if c = Char.ofNat 34 then "\\\""
    else if c = Char.ofNat 92 then "\\\\"
    else if c.toNat < 32 then "\\u00" ++ (Nat.toDigits 16 c.toNat).asString
    else c.toString)) ++ "\""

mutual

/-- Python `json.dumps` with its default separators `", "` and `": "`,
mirroring `raw_json_str = json.dumps(data)` in `Sign2.py` and
`json.dumps(result)` in `Test.py`/`Polaris.py`. -/
def dumps : Json → String
  | .null => "null"
  | .bool true => "true"
  | .bool false => "false"
  | .str s => dumpsStr s
  | .num n => toString n
  | .arr xs => "[" ++ dumpsList xs ++ "]"
  | .obj fields => "\x7b" ++ dumpsFields fields ++ "\x7d"

def dumpsList : List Json → String
  | [] => ""
  | [x] => dumps x
  | x :: y :: xs => dumps x ++ ", " ++ dumpsList (y :: xs)

def dumpsFields : List (String × Json) → String
  | [] => ""
  | [kv] => dumpsStr kv.1 ++ ": " ++ dumps kv.2
  | kv :: kv2 :: fs => dumpsStr kv.1 ++ ": " ++ dumps kv.2 ++ ", " ++ dumpsFields (kv2 :: fs)

end

mutual

/-- Python `str(x)` for a parsed-JSON `x`, as used by f-string
interpolation (`f"Status: {status}"`) and by `csv.writer` when writing a
field. -/
def Json.pyStr : Json → String
  | .null => "None"
  | .bool true => "True"
  | .bool false => "False"
  | .str s => s
  | .num n => toString n
  | .arr xs => "[" ++ Json.pyReprList xs ++ "]"
  | .obj fields => "\x7b" ++ Json.pyReprFields fields ++ "\x7d"

/-- Python `repr` of a parsed-JSON value (string escaping beyond the
quotes is not modelled; it is never exercised by the claims). -/
def Json.pyRepr : Json → String
  | .null => "None"
  | .bool true => "True"
  | .bool false => "False"
  | .str s => sq ++ s ++ sq
  | .num n => toString n
  | .arr xs => "[" ++ Json.pyReprList xs ++ "]"
  | .obj fields => "\x7b" ++ Json.pyReprFields fields ++ "\x7d"

def Json.pyReprList : List Json → String
  | [] => ""
  | [x] => Json.pyRepr x
  | x :: y :: xs => Json.pyRepr x ++ ", " ++ Json.pyReprList (y :: xs)

def Json.pyReprFields : List (String × Json) → String
  | [] => ""
  | [kv] => sq ++ kv.1 ++ sq ++ ": " ++ Json.pyRepr kv.2
  | kv :: kv2 :: fs =>
    sq ++ kv.1 ++ sq ++ ": " ++ Json.pyRepr kv.2 ++ ", " ++ Json.pyReprFields (kv2 :: fs)

end

/-! ## Sign2.py: the synchronous retrying requester `safe_api_call` -/

/-- One HTTP attempt of `requests.get(signed_url, timeout=15)`:
`none` models a raised `requests.RequestException`, `some (status, body)`
a response with the given status code and parsed JSON body. -/
abbrev HttpAttempt := Option (Nat × Json)

/-- An attempt that does not enter the `status_code == 200` branch of
`safe_api_call`: either a raised `RequestException` or a non-200 status. -/
def attemptFails (r : HttpAttempt) : Prop :=
  ∀ p : Nat × Json, r = some p → p.1 ≠ 200

instance (r : HttpAttempt) : Decidable (attemptFails r) := by
  unfold attemptFails; infer_instance

/-- The loop body of `safe_api_call` (`Sign2.py` lines 67–83):
`for attempt in range(1, MAX_RETRIES + 1)`.  `attempt` is the Python loop
variable; `remaining` is the number of loop iterations left, so the loop
runs while `remaining > 0` exactly as the Python range does.  The result
carries the returned value (`some body` on the first 200 response, `none`
after the loop falls through), the list of `time.sleep` backoff delays
`RETRY_BACKOFF_BASE ** attempt` in order, and the number of HTTP attempts
issued. -/
def safe_api_call_go (base : Nat) (resp : Nat → HttpAttempt) (attempt : Nat) :
    Nat → Option Json × List Nat × Nat
  | 0 => (none, [], 0)
  | remaining + 1 =>
    match resp attempt with
    | some (status, body) =>
      if status = 200 then (some body, [], 1)
      else
        let rest := safe_api_call_go base resp (attempt + 1) remaining
        (rest.1, base ^ attempt :: rest.2.1, rest.2.2 + 1)
    | none =>
      let rest := safe_api_call_go base resp (attempt + 1) remaining
      (rest.1, base ^ attempt :: rest.2.1, rest.2.2 + 1)

/-- `safe_api_call(signed_url)` from `Sign2.py`: up to `MAX_RETRIES` loop
iterations starting at `attempt = 1`, returning the parsed body of the
first 200 response and `None` once the loop is exhausted.  The HTTP layer
(`requests.get` on the signed URL) is abstracted as `resp`, indexed by the
attempt number. -/
def safe_api_call (maxRetries base : Nat) (resp : Nat → HttpAttempt) :
    Option Json × List Nat × Nat :=
  safe_api_call_go base resp 1 maxRetries

/-! ## Test.py: the asynchronous per-record requester `fetch_single` -/

/-- One input record of `Test.py`/`Polaris.py` (a dict built from the
`employee`, `source_address`, `destination_address` columns). -/
structure EmpRec where
  employee : String
  source_address : String
  destination_address : String
deriving Inhabited

/-- The result dict built by `fetch_single` (`Test.py` lines 84–94) and by
`fetch_distance` (`Polaris.py` lines 77–87).  The `distance_*` /
`duration_*` fields hold the parsed-JSON values produced by the
`.get(..., '')` lookups. -/
structure EmpRow where
  employee : String
  source : String
  destination : String
  distance_text : Json
  distance_value : Json
  duration_text : Json
  duration_value : Json
  timestamp : String
  raw_response : String
deriving Inhabited

/-- The `try: element = result['rows'][i]['elements'][j]; distance =
element.get('distance', {}); duration = element.get('duration', {})`
block shared by `Test.py` (with `i = j = 0`) and `Polaris.py` (with
`i = j` the record's index).  `some (distance, duration)` iff no
exception is raised, i.e. the subscript chain resolves and the element
supports `.get` (is a dict). -/
def tryDistDur (result : Json) (i j : Nat) : Option (Json × Json) :=
  match (((result.subscr? "rows").bind (fun r => r.idx? i)).bind
      (fun row => row.subscr? "elements")).bind (fun es => es.idx? j) with
  | some (Json.obj fs) =>
    some ((Json.obj fs).dGet "distance" (Json.obj []),
          (Json.obj fs).dGet "duration" (Json.obj []))
  | _ => none

/-- The result of one `fetch_single` call: the returned value (`none`
models Python `None`), the total number of HTTP attempts issued including
429 retries, and whether the "Incomplete data" per-record warning was
logged. -/
structure FetchRes where
  row? : Option EmpRow
  attempts : Nat
  incompleteWarn : Bool
deriving Inhabited

/-- The row dict returned by `fetch_single` on a 200 response `body`. -/
def mkEmpRow (ts : String) (rec : EmpRec) (body : Json) : EmpRow × Bool :=
  let dd := tryDistDur body 0 0
  let distance := (dd.map (fun p => p.1)).getD (Json.obj [])
  let duration := (dd.map (fun p => p.2)).getD (Json.obj [])
  ({ employee := rec.employee
     source := rec.source_address
     destination := rec.destination_address
     distance_text := distance.dGet "text" (Json.str "")
     distance_value := distance.dGet "value" (Json.str "")
     duration_text := duration.dGet "text" (Json.str "")
     duration_value := duration.dGet "value" (Json.str "")
     timestamp := ts
     raw_response := dumps body }, dd.isNone)

/-- Recursion core of `fetch_single` (`Test.py` lines 46–98).  `retry` is
the Python `retry` parameter; `remaining` realizes the guard
`retry < MAX_RETRIES` structurally (`remaining = MAX_RETRIES - retry`,
positive iff another 429 retry is allowed).  `resp` abstracts
`session.get(url)`, indexed by `retry`; the rate limiter, the 429 backoff
sleep `2 ** retry + random.uniform(0.1, 0.5)` and the `finally` slot sleep
are timing-only effects with no bearing on the returned value. -/
def fetch_single_go (resp : Nat → Nat × Json) (ts : String) (rec : EmpRec)
    (retry : Nat) (remaining : Nat) : FetchRes :=
  let status := (resp retry).1
  let body := (resp retry).2
  if status = 429 then
    match remaining with
    | 0 => ⟨none, 1, false⟩
    | r + 1 =>
      let rest := fetch_single_go resp ts rec (retry + 1) r
      ⟨rest.row?, rest.attempts + 1, rest.incompleteWarn⟩
  else if status ≠ 200 then ⟨none, 1, false⟩
  else
    let rw := mkEmpRow ts rec body
    ⟨some rw.1, 1, rw.2⟩

/-- `fetch_single(session, rec, api_key, base_url, ssl_context)` from
`Test.py`, entered at `retry = 0`. -/
def fetch_single (maxRetries : Nat) (resp : Nat → Nat × Json) (ts : String)
    (rec : EmpRec) : FetchRes :=
  fetch_single_go resp ts rec 0 maxRetries

/-- `fetch_all` from `Test.py` lines 100–111: one `fetch_single` per
record (`asyncio.gather` keeps input order), then
`[r for r in results if r]` — `None` results are dropped, result dicts
(always truthy) are kept.  `resp i` is the response function seen by
record `i`. -/
def fetch_all (maxRetries : Nat) (resp : Nat → Nat → Nat × Json) (ts : String)
    (records : List EmpRec) : List EmpRow :=
  (records.enum.map (fun p => (fetch_single maxRetries (resp p.1) ts p.2).row?)).filterMap id

/-! ## Sign2.py: failure sink and batch reconciliation -/

/-- One record yielded by `valid_rows` in `Sign2.py`: the tuple
`(row_id, origin, destination)`. -/
structure PRec where
  id : Nat
  origin : String
  destination : String
deriving Inhabited, DecidableEq

/-- One data row written by `process_batch` via
`output_writer.writerow([...])` — seven string fields in the order of the
`writerow` list. -/
structure OutRow where
  pair_id : String
  origin : String
  destination : String
  distance_text : String
  duration_text : String
  traffic_duration : String
  raw_output : String
deriving Inhabited, DecidableEq

/-- A call to `log_failed_batch(batch, reason)` recorded by the
reconciliation model: the batch passed and the reason string. -/
abbrev FailCall := List PRec × String

/-- `log_failed_batch` from `Sign2.py` lines 62–65: a single synchronous
append of one formatted line to the failure log.  The file is modelled by
its current `contents`; `writeOk` says whether the underlying
`open`/`write` succeeds.  The function body contains no `try`/`except`,
so a failing write raises (`Except.error`) into the caller. -/
def log_failed_batch (writeOk : Bool) (contents : String) (batch : List PRec)
    (reason : String) : Except String String :=
  let batch_ids := batch.map (fun b => toString b.id)
  let line := "Failed batch IDs: " ++ pyReprStrList batch_ids ++ " Reason: " ++ reason ++ "\n"
  if writeOk then Except.ok (contents ++ line) else Except.error "OSError"

/-- `f"Mismatch in rows count: expected {len(origins)}, got {len(rows)}"`. -/
def rowsMismatchMsg (expected got : Nat) : String :=
  "Mismatch in rows count: expected " ++ toString expected ++ ", got " ++ toString got

/-- `f"Mismatch in elements count for row {i}: expected {len(destinations)}, got {len(elements)}"`. -/
def elemMismatchMsg (i expected got : Nat) : String :=
  "Mismatch in elements count for row " ++ toString i ++ ": expected " ++
    toString expected ++ ", got " ++ toString got

/-- `data.get("rows", [])` of `process_batch`, as a list. -/
def rowsOf (data : Json) : List Json :=
  (data.dGet "rows" (Json.arr [])).asArr

/-- `row.get("elements", [])` of `process_batch`, as a list. -/
def elementsOf (row : Json) : List Json :=
  (row.dGet "elements" (Json.arr [])).asArr

/-- The inner loop body of `process_batch` (`Sign2.py` lines 119–143):
the row written for element `(i, j)` of the response matrix.  Indexing
`batch[i]`/`batch[j]` is total in Python because `i < len(rows) =
len(origins) = len(batch)` and `j < len(elements) = len(destinations) =
len(batch)` whenever this code runs; `getD` with the `default` record is
therefore never out of range on reachable inputs. -/
def emitElem (raw : String) (batch : List PRec) (i j : Nat) (element : Json) : OutRow :=
  let pair_id := toString (batch.getD i default).id ++ "-" ++ toString (batch.getD j default).id
  let origin := (batch.getD i default).origin
  let destination := (batch.getD j default).destination
  let status := element.dGet "status" (Json.str "UNKNOWN")
  if status.isStrEq "OK" then
    { pair_id, origin, destination
      distance_text := ((element.dGet "distance" (Json.obj [])).dGet "text" (Json.str "")).pyStr
      duration_text := ((element.dGet "duration" (Json.obj [])).dGet "text" (Json.str "")).pyStr
      traffic_duration :=
        ((element.dGet "duration_in_traffic" (Json.obj [])).dGet "text" (Json.str "")).pyStr
      raw_output := raw }
  else
    { pair_id, origin, destination
      distance_text := "", duration_text := "", traffic_duration := ""
      raw_output := "Status: " ++ status.pyStr ++ " | " ++ raw }

/-- The per-`row` iteration of `process_batch` (lines 113–143): an
elements-count mismatch logs a failure for the whole batch and
`continue`s; otherwise one row is written per element. -/
def processRow (raw : String) (batch : List PRec) (i : Nat) (row : Json) :
    List OutRow × List FailCall :=
  let elements := elementsOf row
  if elements.length ≠ batch.length then
    ([], [(batch, elemMismatchMsg i batch.length elements.length)])
  else
    (elements.enum.map (fun p => emitElem raw batch i p.1 p.2), [])

/-- `process_batch(batch, output_writer)` from `Sign2.py` lines 85–143.
URL construction and signing feed only the HTTP layer, which is
abstracted as `resp` (the response sequence seen by `safe_api_call` for
this batch); `origins` and `destinations` are the per-record fields, so
`len(origins) = len(destinations) = len(batch)`.  Returns the rows
written and the `log_failed_batch` calls made, each in program order. -/
def process_batch (maxRetries base : Nat) (resp : Nat → HttpAttempt)
    (batch : List PRec) : List OutRow × List FailCall :=
  match (safe_api_call maxRetries base resp).1 with
  | none => ([], [(batch, "Max retries exceeded or API failure")])
  | some data =>
    let raw := dumps data
    let rows := rowsOf data
    if rows.length ≠ batch.length then
      ([], [(batch, rowsMismatchMsg batch.length rows.length)])
    else
      let results := rows.enum.map (fun p => processRow raw batch p.1 p.2)
      ((results.map (fun r => r.1)).flatten, (results.map (fun r => r.2)).flatten)

/-! ## Batch planning -/

/-- Python `range(start, stop, step)` for a positive step (a zero step
raises `ValueError` in Python and yields `[]` here, a case no caller
reaches). -/
def pyRange (start stop step : Nat) : List Nat :=
  if _h : 0 < step ∧ start < stop then start :: pyRange (start + step) stop step
  else []
termination_by stop - start
decreasing_by omega

/-- The recursion equation of `pyRange`, stated once for rewriting. -/
theorem pyRange_eq (start stop step : Nat) :
    pyRange start stop step =
      if 0 < step ∧ start < stop then start :: pyRange (start + step) stop step
      else [] := by
  rw [pyRange]
  split <;> simp_all

/-- The batch planner of `Polaris.py` line 129:
`batches = [data[i:i + batch_size] for i in range(0, len(data), batch_size)]`,
with `data[i:i+k] = (data.drop i).take k` for `i ≥ 0`. -/
def pyBatches {α : Type} (data : List α) (k : Nat) : List (List α) :=
  (pyRange 0 data.length k).map (fun i => (data.drop i).take k)

/-- The streaming batcher of `batch_and_process` (`Sign2.py` lines
145–162): records are appended to `batch`; a full batch is processed and
reset; a non-empty leftover batch is processed at the end.  This returns
the list of processed batches in order. -/
def streamBatches (k : Nat) (acc : List PRec) : List PRec → List (List PRec)
  | [] => if acc.isEmpty then [] else [acc]
  | r :: rest =>
    let acc2 := acc ++ [r]
    if acc2.length = k then acc2 :: streamBatches k [] rest
    else streamBatches k acc2 rest

/-- `batch_and_process(filepath, output_filepath)` from `Sign2.py`:
the records yielded by `valid_rows` (taken here as the already-validated,
already-numbered input list) are grouped by the streaming loop and each
batch is handed to `process_batch` in order, each batch's rows being
written before the next batch is dispatched.  `resps i` is the response
sequence seen by batch `i`.  The result is (data rows, failure-log calls)
in program order; the header row written before any data is not part of
the model. -/
def batch_and_process (maxRetries base : Nat) (resps : Nat → Nat → HttpAttempt)
    (records : List PRec) (k : Nat) : List OutRow × List FailCall :=
  let bs := streamBatches k [] records
  let results := bs.enum.map (fun p => process_batch maxRetries base (resps p.1) p.2)
  ((results.map (fun r => r.1)).flatten, (results.map (fun r => r.2)).flatten)

/-! ## Polaris.py: synchronous batched per-record fetching -/

/-- `fetch_distance(session, batch, api_key)` from `Polaris.py` lines
46–89.  The single `session.get` for the whole batch is abstracted as
`respResult`: `none` models a raised exception (the `except` branch
returns `[]`), `some result` the parsed JSON.  For each record `i` the
element `result['rows'][i]['elements'][i]` is looked up; on any exception
the warning branch leaves `distance = duration = {}` and the record is
still appended. -/
def fetch_distance (batch : List EmpRec) (respResult : Option Json) (ts : String) :
    List EmpRow :=
  match respResult with
  | none => []
  | some result =>
    batch.enum.map (fun p =>
      let dd := tryDistDur result p.1 p.1
      let distance := (dd.map (fun q => q.1)).getD (Json.obj [])
      let duration := (dd.map (fun q => q.2)).getD (Json.obj [])
      { employee := p.2.employee
        source := p.2.source_address
        destination := p.2.destination_address
        distance_text := distance.dGet "text" (Json.str "")
        distance_value := distance.dGet "value" (Json.str "")
        duration_text := duration.dGet "text" (Json.str "")
        duration_value := duration.dGet "value" (Json.str "")
        timestamp := ts
        raw_response := dumps result })

/-- The dispatch loop of `Polaris.py` `main` (lines 129–137): the planner
builds the batches, then each batch is fetched sequentially in order and
its results extended onto `all_results`.  `resps i` is the outcome of
batch `i`'s request. -/
def polaris_run (data : List EmpRec) (k : Nat) (resps : Nat → Option Json)
    (ts : String) : List EmpRow :=
  ((pyBatches data k).enum.map (fun p => fetch_distance p.2 (resps p.1) ts)).flatten

/-! ## Sign2.py: the URL signer

`sign_url` uses `urllib.parse.urlparse`, `base64.urlsafe_b64decode`,
`hmac.new(..., hashlib.sha1)`, `base64.urlsafe_b64encode` and
`str.replace`.  These standard-library functions are modelled below at
the byte/character level (bytes are `Nat`s < 256). -/

/-- Split a character list at the first occurrence of `c` (the separator
removed), or `none` if absent — Python `s.split(c, 1)` / `s.find(c)`. -/
def splitAtChar? (c : Char) : List Char → Option (List Char × List Char)
  | [] => none
  | x :: xs =>
    if x = c then some ([], xs)
    else (splitAtChar? c xs).map (fun p => (x :: p.1, p.2))

/-- The characters admitted in a URL scheme by `urllib.parse`
(`scheme_chars`): letters, digits, `+`, `-`, `.`. -/
def isSchemeChar (c : Char) : Bool :=
  c.isAlpha || c.isDigit || c == '+' || c == '-' || c == '.'

/-- The result of `urllib.parse.urlsplit`: scheme, netloc, path, query,
fragment. -/
structure UrlSplit where
  scheme : String
  netloc : String
  path : String
  query : String
  fragment : String
deriving Inhabited, DecidableEq

/-- `urllib.parse.urlsplit(url)` (with `allow_fragments=True`):
a leading `scheme:` made of scheme characters and starting with a letter
is split off and lowercased; after `//` the netloc extends to the first
`/`, `?` or `#`; the remainder splits at the first `#` into
rest/fragment, then at the first `?` into path/query. -/
def urlsplit (s : String) : UrlSplit :=
  let cs := s.data
  let schemeRest : List Char × List Char :=
    match splitAtChar? ':' cs with
    | some (before, after) =>
      if !before.isEmpty && (before.headD 'a').isAlpha && before.all isSchemeChar then
        (before.map Char.toLower, after)
      else ([], cs)
    | none => ([], cs)
  let notNetlocEnd : Char → Bool := fun c => !(c == '/') && !(c == '?') && !(c == '#')
  let netlocRest : List Char × List Char :=
    match schemeRest.2 with
    | '/' :: '/' :: r => (r.takeWhile notNetlocEnd, r.dropWhile notNetlocEnd)
    | r => ([], r)
  let restFragment : List Char × List Char :=
    match splitAtChar? '#' netlocRest.2 with
    | some p => p
    | none => (netlocRest.2, [])
  let pathQuery : List Char × List Char :=
    match splitAtChar? '?' restFragment.1 with
    | some p => p
    | none => (restFragment.1, [])
  ⟨String.mk schemeRest.1, String.mk netlocRest.1, String.mk pathQuery.1,
   String.mk pathQuery.2, String.mk restFragment.2⟩

/-- `urllib.parse._splitparams(url)`: split parameters after the `;` in
the last path segment. -/
def splitParams (p : List Char) : List Char × List Char :=
  let tailSeg : List Char :=
    if p.contains '/' then ((p.reverse.takeWhile (fun c => !(c == '/')))).reverse
    else p
  match splitAtChar? ';' tailSeg with
  | some (before, after) => (p.take (p.length - tailSeg.length) ++ before, after)
  | none => (p, [])

/-- The result of `urllib.parse.urlparse`: `urlsplit` plus the `params`
component split out of the path. -/
structure UrlParse where
  scheme : String
  netloc : String
  path : String
  params : String
  query : String
  fragment : String
deriving Inhabited, DecidableEq

/-- `urllib.parse.urlparse(url)`. -/
def urlparse (s : String) : UrlParse :=
  let u := urlsplit s
  if u.path.data.contains ';' then
    let pq := splitParams u.path.data
    ⟨u.scheme, u.netloc, String.mk pq.1, String.mk pq.2, u.query, u.fragment⟩
  else ⟨u.scheme, u.netloc, u.path, "", u.query, u.fragment⟩

/-- UTF-8 encoding of one character. -/
def utf8Char (c : Char) : List Nat :=
  let n := c.toNat
  if n < 128 then [n]
  else if n < 2048 then [192 + n / 64, 128 + n % 64]
  else if n < 65536 then [224 + n / 4096, 128 + n / 64 % 64, 128 + n % 64]
  else [240 + n / 262144, 128 + n / 4096 % 64, 128 + n / 64 % 64, 128 + n % 64]

/-- Python `s.encode()`: the UTF-8 bytes of a string. -/
def utf8Bytes (s : String) : List Nat :=
  (s.data.map utf8Char).flatten

/-- The value of a base64 character in the url-safe alphabet (standard
`+`/`/` are translated to `-`/`_` by `urlsafe_b64decode` before decoding,
so both alphabets are accepted here exactly as Python does after the
`translate` step; everything else — including padding `=` — is
discarded, as `b64decode(validate=False)` does). -/
def b64Val? (c : Char) : Option Nat :=
  if 65 ≤ c.toNat ∧ c.toNat ≤ 90 then some (c.toNat - 65)
  else if 97 ≤ c.toNat ∧ c.toNat ≤ 122 then some (c.toNat - 97 + 26)
  else if 48 ≤ c.toNat ∧ c.toNat ≤ 57 then some (c.toNat - 48 + 52)
  else if c = '-' ∨ c = '+' then some 62
  else if c = '_' ∨ c = '/' then some 63
  else none

/-- Reassemble decoded 6-bit groups into bytes. -/
def b64DecBytes : List Nat → List Nat
  | a :: b :: c :: d :: rest =>
    (a * 4 + b / 16) :: (b % 16 * 16 + c / 4) :: (c % 4 * 64 + d) :: b64DecBytes rest
  | [a, b] => [a * 4 + b / 16]
  | [a, b, c] => [a * 4 + b / 16, b % 16 * 16 + c / 4]
  | _ => []

/-- `base64.urlsafe_b64decode(secret)` for a correctly padded input (the
decode error raised on bad padding is a startup-time failure outside
these claims). -/
def b64urlDecode (s : String) : List Nat :=
  b64DecBytes (s.data.filterMap b64Val?)

/-- The url-safe base64 alphabet character for a 6-bit value. -/
def b64Char (v0 : Nat) : Char :=
  let v := v0 % 64
  if v < 26 then Char.ofNat (65 + v)
  else if v < 52 then Char.ofNat (97 + (v - 26))
  else if v < 62 then Char.ofNat (48 + (v - 52))
  else if v = 62 then '-'
  else '_'

/-- Url-safe base64 encoding of a byte list, with `=` padding. -/
def b64EncChars : List Nat → List Char
  | [] => []
  | [a] => [b64Char (a / 4), b64Char (a % 4 * 16), '=', '=']
  | [a, b] => [b64Char (a / 4), b64Char (a % 4 * 16 + b / 16), b64Char (b % 16 * 4), '=']
  | a :: b :: c :: rest =>
    b64Char (a / 4) :: b64Char (a % 4 * 16 + b / 16) ::
      b64Char (b % 16 * 4 + c / 64) :: b64Char (c % 64) :: b64EncChars rest

/-- `base64.urlsafe_b64encode(...)` followed by `.decode()`. -/
def b64urlEncode (bytes : List Nat) : String :=
  String.mk (b64EncChars bytes)

/-- Truncation to a 32-bit word. -/
def w32 (n : Nat) : Nat := n % 4294967296

/-- 32-bit left rotation by `n` places of a word `x < 2^32`. -/
def rotl (n x : Nat) : Nat := w32 (x * 2 ^ n + x / 2 ^ (32 - n))

/-- Big-endian assembly of 4-byte groups into 32-bit words. -/
def bytesToWords : List Nat → List Nat
  | b0 :: b1 :: b2 :: b3 :: rest =>
    (b0 * 16777216 + b1 * 65536 + b2 * 256 + b3) :: bytesToWords rest
  | _ => []

/-- Big-endian bytes of a 32-bit word. -/
def wordBytes (x : Nat) : List Nat :=
  [x / 16777216 % 256, x / 65536 % 256, x / 256 % 256, x % 256]

/-- SHA-1 message padding: `0x80`, zeros to 56 mod 64, then the bit
length as 8 big-endian bytes. -/
def sha1Pad (msg : List Nat) : List Nat :=
  let l := msg.length
  let zeros := (64 - (l + 9) % 64) % 64
  msg ++ 128 :: List.replicate zeros 0 ++
    (List.range 8).map (fun i => 8 * l / 2 ^ (8 * (7 - i)) % 256)

/-- SHA-1 message-schedule extension: append words 16…79. -/
def sha1Extend (w : List Nat) : List Nat :=
  (List.range 64).foldl
    (fun acc _ =>
      acc ++ [rotl 1 (acc.getD (acc.length - 3) 0 ^^^ acc.getD (acc.length - 8) 0 ^^^
        acc.getD (acc.length - 14) 0 ^^^ acc.getD (acc.length - 16) 0)])
    w

/-- The SHA-1 state: five 32-bit words. -/
structure Sha1St where
  h0 : Nat
  h1 : Nat
  h2 : Nat
  h3 : Nat
  h4 : Nat

/-- One SHA-1 compression round (`t` the round index, `wt` the schedule
word). -/
def sha1Round (st : Sha1St) (t wt : Nat) : Sha1St :=
  let f :=
    if t < 20 then (st.h1 &&& st.h2) ||| ((st.h1 ^^^ 4294967295) &&& st.h3)
    else if t < 40 then st.h1 ^^^ st.h2 ^^^ st.h3
    else if t < 60 then (st.h1 &&& st.h2) ||| (st.h1 &&& st.h3) ||| (st.h2 &&& st.h3)
    else st.h1 ^^^ st.h2 ^^^ st.h3
  let k :=
    if t < 20 then 1518500249
    else if t < 40 then 1859775393
    else if t < 60 then 2400959708
    else 3395469782
  ⟨w32 (rotl 5 st.h0 + f + st.h4 + k + wt), st.h0, rotl 30 st.h1, st.h2, st.h3⟩

/-- SHA-1 compression of one 64-byte block into the chaining state. -/
def sha1Block (h : Sha1St) (block : List Nat) : Sha1St :=
  let w := sha1Extend (bytesToWords block)
  let f := w.enum.foldl (fun st p => sha1Round st p.1 p.2) h
  ⟨w32 (h.h0 + f.h0), w32 (h.h1 + f.h1), w32 (h.h2 + f.h2),
   w32 (h.h3 + f.h3), w32 (h.h4 + f.h4)⟩

/-- `hashlib.sha1(msg).digest()`: the 20-byte SHA-1 digest. -/
def sha1 (msg : List Nat) : List Nat :=
  let st := (pyBatches (sha1Pad msg) 64).foldl sha1Block
    ⟨1732584193, 4023233417, 2562383102, 271733878, 3285377520⟩
  wordBytes st.h0 ++ wordBytes st.h1 ++ wordBytes st.h2 ++ wordBytes st.h3 ++ wordBytes st.h4

/-- `hmac.new(key, msg, hashlib.sha1).digest()` (RFC 2104 with a 64-byte
block). -/
def hmacSha1 (key msg : List Nat) : List Nat :=
  let k0 := if key.length > 64 then sha1 key else key
  let kp := k0 ++ List.replicate (64 - k0.length) 0
  sha1 ((kp.map (fun b => b ^^^ 92)) ++ sha1 ((kp.map (fun b => b ^^^ 54)) ++ msg))

/-- Python `s.replace(a, b)` for single-character `a`, `b`. -/
def pyReplaceChar (s : String) (a b : Char) : String :=
  String.mk (s.data.map (fun c => if c = a then b else c))

/-- `sign_url(input_url, secret)` from `Sign2.py` lines 51–60. -/
def sign_url (input_url secret : String) : String :=
  let url := urlparse input_url
  let url_to_sign := url.path ++ "?" ++ url.query
  let decoded_secret := b64urlDecode secret
  let signature := hmacSha1 decoded_secret (utf8Bytes url_to_sign)
  let encoded_signature := b64urlEncode signature
  let safe_signature := pyReplaceChar (pyReplaceChar encoded_signature '+' '-') '/' '_'
  url.scheme ++ "://" ++ url.netloc ++ url.path ++ "?" ++ url.query ++
    "&signature=" ++ safe_signature

/-- The signature value as described by the specification (§4.2): the
url-safe base64 encoding of the HMAC-SHA1 digest computed with the
base64url-decoded secret as key over the UTF-8 bytes of
`path + "?" + query`. -/
def spec_signature (path query secret : String) : String :=
  b64urlEncode (hmacSha1 (b64urlDecode secret) (utf8Bytes (path ++ "?" ++ query)))

/-! ## Behaviour of the retrying requesters (claims C1, C4) -/

theorem safe_api_call_go_allFail (base : Nat) (resp : Nat → HttpAttempt)
    (hf : ∀ t, attemptFails (resp t)) :
    ∀ remaining attempt, safe_api_call_go base resp attempt remaining =
      (none, (List.range remaining).map (fun i => base ^ (attempt + i)), remaining) := by
  intro remaining
  induction remaining with
  | zero => intro attempt; simp [safe_api_call_go]
  | succ r ih =>
    intro attempt
    have hrange : (List.range (r + 1)).map (fun i => base ^ (attempt + i)) =
        base ^ attempt :: (List.range r).map (fun i => base ^ (attempt + 1 + i)) := by
      rw [List.range_succ_eq_map, List.map_cons, List.map_map]
      refine congrArg₂ _ (by rw [Nat.add_zero]) (List.map_congr_left ?_)
      intro i _
      simp only [Function.comp_apply]
      congr 1
      omega
    unfold safe_api_call_go
    cases hr : resp attempt with
    | none => simp [ih (attempt + 1), hrange]
    | some p =>
      obtain ⟨s, b⟩ := p
      have hne : s ≠ 200 := hf attempt (s, b) hr
      simp [hne, ih (attempt + 1), hrange]

theorem fetch_single_go_all429 (resp : Nat → Nat × Json) (ts : String) (rec : EmpRec)
    (h : ∀ t, (resp t).1 = 429) :
    ∀ remaining retry, fetch_single_go resp ts rec retry remaining =
      ⟨none, remaining + 1, false⟩ := by
  intro remaining
  induction remaining with
  | zero => intro retry; simp [fetch_single_go, h retry]
  | succ r ih => intro retry; simp [fetch_single_go, h retry, ih (retry + 1)]

/-- **C1** (corrected).  Against an endpoint that never succeeds, the
synchronous requester `safe_api_call` of `Sign2.py` performs exactly
`MAX_RETRIES` total HTTP attempts — not `MAX_RETRIES + 1` — before
returning the terminal `None`, sleeping `base^1, …, base^R` (a backoff is
slept even after the final attempt); the asynchronous requester
`fetch_single` of `Test.py` performs `MAX_RETRIES + 1` total attempts,
but only when every response is HTTP 429. -/
theorem C1_theorem (R base : Nat) (resp : Nat → HttpAttempt)
    (resp2 : Nat → Nat × Json) (ts : String) (rec : EmpRec)
    (hfail : ∀ t, attemptFails (resp t)) (h429 : ∀ t, (resp2 t).1 = 429) :
    safe_api_call R base resp =
      (none, (List.range R).map (fun i => base ^ (1 + i)), R) ∧
    fetch_single R resp2 ts rec = ⟨none, R + 1, false⟩ := by
  constructor
  · exact safe_api_call_go_allFail base resp hfail R 1
  · exact fetch_single_go_all429 resp2 ts rec h429 R 0

/-- **C1** witness: with `max_retries = 2` and `base = 2`, an
always-HTTP-500 endpoint gets exactly 2 attempts from `safe_api_call`
(delays `2, 4`), and an always-429 endpoint gets exactly 3 attempts from
`fetch_single`. -/
theorem C1_theorem_witness :
    safe_api_call 2 2 (fun _ => some (500, Json.null)) = (none, [2, 4], 2) ∧
    fetch_single 2 (fun _ => (429, Json.null)) "" ⟨"e", "a", "b"⟩ = ⟨none, 3, false⟩ := by
  have h := C1_theorem 2 2 (fun _ => some (500, Json.null)) (fun _ => (429, Json.null))
    "" ⟨"e", "a", "b"⟩ (fun t p hp => by cases hp; decide) (fun t => rfl)
  have hm : (List.range 2).map (fun i => (2 : Nat) ^ (1 + i)) = [2, 4] := by decide
  rw [hm] at h
  exact h

/-- **C1** counterexample: the claim predicts `R + 1 = 3` total attempts
for `max_retries = 2` against an always-failing (HTTP 500) endpoint, but
`safe_api_call` makes only 2. -/
theorem C1_counterexample :
    (safe_api_call 2 2 (fun _ => some (500, Json.null))).2.2 ≠ 2 + 1 := by
  decide

theorem safe_api_call_go_succeeds (base : Nat) (resp : Nat → HttpAttempt) (body : Json) :
    ∀ k attempt remaining, k < remaining →
      (∀ t, attempt ≤ t → t < attempt + k → attemptFails (resp t)) →
      resp (attempt + k) = some (200, body) →
      safe_api_call_go base resp attempt remaining =
        (some body, (List.range k).map (fun i => base ^ (attempt + i)), k + 1) := by
  intro k
  induction k with
  | zero =>
    intro attempt remaining hlt hf hok
    obtain ⟨r, rfl⟩ : ∃ r, remaining = r + 1 :=
      ⟨remaining - 1, by omega⟩
    rw [Nat.add_zero] at hok
    simp [safe_api_call_go, hok]
  | succ k ih =>
    intro attempt remaining hlt hf hok
    obtain ⟨r, rfl⟩ : ∃ r, remaining = r + 1 := ⟨remaining - 1, by omega⟩
    have hrange : (List.range (k + 1)).map (fun i => base ^ (attempt + i)) =
        base ^ attempt :: (List.range k).map (fun i => base ^ (attempt + 1 + i)) := by
      rw [List.range_succ_eq_map, List.map_cons, List.map_map]
      refine congrArg₂ _ (by rw [Nat.add_zero]) (List.map_congr_left ?_)
      intro i _
      simp only [Function.comp_apply]
      congr 1
      omega
    have hstep := ih (attempt + 1) r (by omega)
      (fun t h1 h2 => hf t (by omega) (by omega))
      (by rw [show attempt + 1 + k = attempt + (k + 1) by omega]; exact hok)
    unfold safe_api_call_go
    cases hr : resp attempt with
    | none => simp [hstep, hrange]
    | some p =>
      obtain ⟨s, b⟩ := p
      have hne : s ≠ 200 := hf attempt (by omega) (by omega) (s, b) hr
      simp [hne, hstep, hrange]

/-- **C4** (corrected).  (a) `safe_api_call` treats every non-200 outcome
(transport error or any non-200 status, 5xx and 429 alike) as retryable
with backoff `base^attempt`, succeeding on a later 200 within the retry
budget; (b) `fetch_single` fails the record immediately — one attempt, no
retry — on any non-200, non-429 status; (c) `fetch_single` does retry
HTTP 429, a second attempt following the first 429. -/
theorem C4_theorem :
    (∀ (R base k : Nat) (resp : Nat → HttpAttempt) (body : Json),
       k < R → (∀ t, 1 ≤ t → t ≤ k → attemptFails (resp t)) →
       resp (k + 1) = some (200, body) →
       safe_api_call R base resp =
         (some body, (List.range k).map (fun i => base ^ (1 + i)), k + 1)) ∧
    (∀ (R : Nat) (resp : Nat → Nat × Json) (ts : String) (rec : EmpRec),
       (resp 0).1 ≠ 200 → (resp 0).1 ≠ 429 →
       fetch_single R resp ts rec = ⟨none, 1, false⟩) ∧
    (∀ (R : Nat) (resp : Nat → Nat × Json) (ts : String) (rec : EmpRec) (body : Json),
       0 < R → (resp 0).1 = 429 → resp 1 = (200, body) →
       (fetch_single R resp ts rec).attempts = 2) := by
  refine ⟨?_, ?_, ?_⟩
  · intro R base k resp body hk hf hok
    refine safe_api_call_go_succeeds base resp body k 1 R hk
      (fun t h1 h2 => hf t h1 (by omega)) ?_
    rw [Nat.add_comm 1 k]
    exact hok
  · intro R resp ts rec h200 h429
    unfold fetch_single fetch_single_go
    simp [h429, h200]
  · intro R resp ts rec body hR h429 hok
    obtain ⟨r, rfl⟩ : ∃ r, R = r + 1 := ⟨R - 1, by omega⟩
    unfold fetch_single fetch_single_go
    simp only [h429, if_pos rfl]
    unfold fetch_single_go
    rw [hok]
    simp

/-- **C4** witness: concrete instances of all three behaviours
(`safe_api_call` retrying through one 503 to a 200; `fetch_single`
giving up at once on a 500; `fetch_single` retrying a 429). -/
theorem C4_theorem_witness :
    safe_api_call 5 2 (fun t => if t = 2 then some (200, Json.null) else some (503, Json.null)) =
      (some Json.null, (List.range 1).map (fun i => 2 ^ (1 + i)), 2) ∧
    fetch_single 5 (fun _ => (500, Json.null)) "t" ⟨"e", "a", "b"⟩ = ⟨none, 1, false⟩ ∧
    (fetch_single 5 (fun t => if t = 0 then (429, Json.null) else (200, Json.null))
      "t" ⟨"e", "a", "b"⟩).attempts = 2 := by
  refine ⟨?_, ?_, ?_⟩
  · refine C4_theorem.1 5 2 1 _ Json.null (by decide) ?_ rfl
    intro t h1 h2 p hp
    have ht : t = 1 := by omega
    subst ht
    cases hp
    decide
  · exact C4_theorem.2.1 5 _ "t" ⟨"e", "a", "b"⟩ (by decide) (by decide)
  · exact C4_theorem.2.2 5 _ "t" ⟨"e", "a", "b"⟩ Json.null (by decide) rfl rfl

/-- **C4** counterexample: the claim says a 5xx response is retried with
backoff rather than failing the unit on the first such response, but
`fetch_single` (`Test.py` lines 70–72) returns terminal `None` after a
single attempt on HTTP 500 even with 5 retries available. -/
theorem C4_counterexample :
    fetch_single 5 (fun _ => (500, Json.null)) "t" ⟨"e", "a", "b"⟩ = ⟨none, 1, false⟩ := by
  rfl

/-! ## Missing-element handling in `fetch_single` (claim C3) -/

/-- **C3** (corrected).  When a 2xx response for a single-pair request
lacks `rows[0].elements[0]`, `fetch_single` logs the per-record
"Incomplete data" warning but does **not** drop the record: it still
returns a result row for it, with empty distance/duration fields (the
`.get('text', '')` lookups on the `{}` fallbacks) and the full raw
response embedded.  It is not a full failure. -/
theorem C3_theorem (maxR : Nat) (resp : Nat → Nat × Json) (ts : String) (rec : EmpRec)
    (h200 : (resp 0).1 = 200) (hmiss : tryDistDur (resp 0).2 0 0 = none) :
    fetch_single maxR resp ts rec =
      ⟨some { employee := rec.employee, source := rec.source_address,
              destination := rec.destination_address,
              distance_text := Json.str "", distance_value := Json.str "",
              duration_text := Json.str "", duration_value := Json.str "",
              timestamp := ts, raw_response := dumps (resp 0).2 },
       1, true⟩ := by
  unfold fetch_single fetch_single_go
  simp only [h200]
  norm_num
  unfold mkEmpRow
  rw [hmiss]
  simp [Json.dGet]

/-- **C3** witness: a 200 response whose body is `{}` (no `rows`) yields
a returned row with empty fields and the warning flag set. -/
theorem C3_theorem_witness :
    fetch_single 5 (fun _ => (200, Json.obj [])) "t" ⟨"e", "a", "b"⟩ =
      ⟨some { employee := "e", source := "a", destination := "b",
              distance_text := Json.str "", distance_value := Json.str "",
              duration_text := Json.str "", duration_value := Json.str "",
              timestamp := "t", raw_response := dumps (Json.obj []) },
       1, true⟩ :=
  C3_theorem 5 (fun _ => (200, Json.obj [])) "t" ⟨"e", "a", "b"⟩ rfl rfl

/-- **C3** counterexample: the claim says the record is dropped from the
output (no result row emitted), but `fetch_all` over one such record
produces one output row, not zero. -/
theorem C3_counterexample :
    (fetch_all 5 (fun _ _ => (200, Json.obj [])) "t" [⟨"e", "a", "b"⟩]).length = 1 ∧
    (1 : Nat) ≠ 0 := by
  constructor
  · rfl
  · decide

/-! ## The failure sink `log_failed_batch` (claim C9) -/

/-- The characters that `Nat.toDigits` can emit are digit characters,
never a newline. -/
theorem Nat.digitChar_ne_newline (d : Nat) : Nat.digitChar d ≠ Char.ofNat 10 := by
  rcases Nat.lt_or_ge d 16 with h | h
  · interval_cases d <;> decide
  · unfold Nat.digitChar
    repeat rw [if_neg (by omega)]
    decide

theorem Nat.toDigitsCore_ne_newline (b : Nat) :
    ∀ (fuel n : Nat) (ds : List Char), (∀ c ∈ ds, c ≠ Char.ofNat 10) →
      ∀ c ∈ Nat.toDigitsCore b fuel n ds, c ≠ Char.ofNat 10 := by
  intro fuel
  induction fuel with
  | zero => intro n ds hds c hc; exact hds c hc
  | succ f ih =>
    intro n ds hds c hc
    simp only [Nat.toDigitsCore] at hc
    split at hc
    · rcases List.mem_cons.mp hc with hc | hc
      · rw [hc]; exact Nat.digitChar_ne_newline _
      · exact hds c hc
    · refine ih _ _ ?_ c hc
      intro x hx
      rcases List.mem_cons.mp hx with hx | hx
      · rw [hx]; exact Nat.digitChar_ne_newline _
      · exact hds x hx

/-- `toString (n : Nat)` contains no newline character. -/
theorem Nat.toString_ne_newline (n : Nat) :
    ∀ c ∈ (toString n).data, c ≠ Char.ofNat 10 := by
  show ∀ c ∈ (Nat.repr n).data, c ≠ Char.ofNat 10
  unfold Nat.repr Nat.toDigits
  intro c hc
  rw [List.asString, String.data] at hc
  exact Nat.toDigitsCore_ne_newline 10 (n + 1) n [] (by simp) c hc

theorem no_newline_append (a b : String)
    (ha : ∀ c ∈ a.data, c ≠ Char.ofNat 10) (hb : ∀ c ∈ b.data, c ≠ Char.ofNat 10) :
    ∀ c ∈ (a ++ b).data, c ≠ Char.ofNat 10 := by
  intro c hc
  rw [String.data_append] at hc
  rcases List.mem_append.mp hc with h | h
  · exact ha c h
  · exact hb c h

theorem pyReprStrListGo_no_newline :
    ∀ xs : List String, (∀ x ∈ xs, ∀ c ∈ x.data, c ≠ Char.ofNat 10) →
      ∀ c ∈ (pyReprStrListGo xs).data, c ≠ Char.ofNat 10 := by
  intro xs
  induction xs with
  | nil => intro _ c hc; simp [pyReprStrListGo] at hc
  | cons x ys ih =>
    intro hx
    cases ys with
    | nil =>
      show ∀ c ∈ (sq ++ x ++ sq).data, c ≠ Char.ofNat 10
      exact no_newline_append _ _
        (no_newline_append _ _ (by decide) (hx x (by simp))) (by decide)
    | cons y zs =>
      show ∀ c ∈ (sq ++ x ++ sq ++ ", " ++ pyReprStrListGo (y :: zs)).data,
        c ≠ Char.ofNat 10
      refine no_newline_append _ _ (no_newline_append _ _ (no_newline_append _ _
        (no_newline_append _ _ (by decide) (hx x (by simp))) (by decide)) (by decide)) ?_
      exact ih (fun z hz => hx z (List.mem_cons_of_mem x hz))

theorem pyReprStrList_ids_no_newline (batch : List PRec) :
    ∀ c ∈ (pyReprStrList (batch.map (fun b => toString b.id))).data,
      c ≠ Char.ofNat 10 := by
  unfold pyReprStrList
  refine no_newline_append _ _ (no_newline_append _ _ (by decide) ?_) (by decide)
  refine pyReprStrListGo_no_newline _ ?_
  intro x hx
  obtain ⟨b, _, rfl⟩ := List.mem_map.mp hx
  exact Nat.toString_ne_newline b.id

/-- **C9** (corrected).  Each successful call of `log_failed_batch`
appends exactly one line `Failed batch IDs: ['id1', …] Reason: <text>`,
newline-terminated, and (when the reason itself has no newline) the
appended text contains exactly one newline, at its end.  However, the
function contains no error handling at all, so a failure to write the
failure log is **not** merely warned about: it raises back into the
calling pipeline. -/
theorem C9_theorem (contents reason : String) (batch : List PRec)
    (hreason : ∀ c ∈ reason.data, c ≠ Char.ofNat 10) :
    log_failed_batch true contents batch reason =
      Except.ok (contents ++
        ("Failed batch IDs: " ++ pyReprStrList (batch.map (fun b => toString b.id)) ++
          " Reason: " ++ reason ++ "\n")) ∧
    ("Failed batch IDs: " ++ pyReprStrList (batch.map (fun b => toString b.id)) ++
        " Reason: " ++ reason ++ "\n").data.count (Char.ofNat 10) = 1 ∧
    log_failed_batch false contents batch reason = Except.error "OSError" := by
  refine ⟨by simp [log_failed_batch], ?_, by simp [log_failed_batch]⟩
  have hzero : ∀ s : String, (∀ c ∈ s.data, c ≠ Char.ofNat 10) →
      s.data.count (Char.ofNat 10) = 0 := by
    intro s hs
    exact List.count_eq_zero.mpr (fun h => hs _ h rfl)
  rw [String.data_append, String.data_append, String.data_append, String.data_append,
    List.count_append, List.count_append, List.count_append, List.count_append,
    hzero _ (by decide), hzero _ (pyReprStrList_ids_no_newline batch),
    hzero _ (by decide), hzero _ hreason]
  decide

/-- **C9** witness: a concrete successful append and the exact line it
produces for batch ids `[7, 8]`. -/
theorem C9_theorem_witness :
    log_failed_batch true "" [⟨7, "o1", "d1"⟩, ⟨8, "o2", "d2"⟩] "Max retries exceeded or API failure" =
      Except.ok ("" ++
        ("Failed batch IDs: " ++
          pyReprStrList ([⟨7, "o1", "d1"⟩, ⟨8, "o2", "d2"⟩].map (fun (b : PRec) => toString b.id)) ++
          " Reason: " ++ "Max retries exceeded or API failure" ++ "\n")) ∧
    ("Failed batch IDs: " ++
        pyReprStrList ([⟨7, "o1", "d1"⟩, ⟨8, "o2", "d2"⟩].map (fun (b : PRec) => toString b.id)) ++
        " Reason: " ++ "Max retries exceeded or API failure" ++ "\n").data.count (Char.ofNat 10) = 1 ∧
    log_failed_batch false "" [⟨7, "o1", "d1"⟩, ⟨8, "o2", "d2"⟩] "Max retries exceeded or API failure" =
      Except.error "OSError" :=
  C9_theorem "" "Max retries exceeded or API failure" [⟨7, "o1", "d1"⟩, ⟨8, "o2", "d2"⟩]
    (by decide)

/-- **C9** counterexample: a failing write is not caught inside
`log_failed_batch` — it propagates an error to the caller, contradicting
"never raises an error back into the calling pipeline". -/
theorem C9_counterexample :
    log_failed_batch false "" [⟨1, "o", "d"⟩] "disk full" = Except.error "OSError" := by
  rfl

/-! ## The batch planner (claim C6) -/

theorem pyRange_shift (d : Nat) : ∀ a b step,
    pyRange (a + d) (b + d) step = (pyRange a b step).map (fun x => x + d) := by
  intro a b step
  induction a, b, step using pyRange.induct with
  | case1 a b step h ih =>
    rw [pyRange_eq a b step, pyRange_eq (a + d) (b + d) step, if_pos h,
      if_pos ⟨h.1, by omega⟩, List.map_cons]
    rw [show a + d + step = a + step + d by omega, ih]
  | case2 a b step h =>
    rw [pyRange_eq a b step, pyRange_eq (a + d) (b + d) step, if_neg h,
      if_neg (by omega), List.map_nil]

theorem pyBatches_nil {α : Type} (k : Nat) : pyBatches ([] : List α) k = [] := by
  unfold pyBatches
  rw [List.length_nil, pyRange_eq]
  simp

theorem pyBatches_cons {α : Type} (data : List α) (k : Nat) (hk : 0 < k)
    (hne : data ≠ []) :
    pyBatches data k = data.take k :: pyBatches (data.drop k) k := by
  have hlen : 0 < data.length := List.length_pos.mpr hne
  unfold pyBatches
  rw [pyRange_eq 0 data.length k, if_pos ⟨hk, hlen⟩, List.map_cons, List.drop_zero,
    List.length_drop]
  congr 1
  rcases Nat.lt_or_ge (data.length) k with hlt | hge
  · rw [pyRange_eq, if_neg (by omega), pyRange_eq, if_neg (by omega)]
    simp
  · have e : data.length = (data.length - k) + k := by omega
    rw [Nat.zero_add,
      show pyRange k data.length k = pyRange (0 + k) ((data.length - k) + k) k by
        rw [Nat.zero_add, ← e],
      pyRange_shift k 0 (data.length - k) k, List.map_map]
    refine List.map_congr_left ?_
    intro i _
    simp only [Function.comp_apply]
    rw [List.drop_drop]
    congr 2
    omega

/-- **C6** (confirmed).  The batch planner
`[data[i:i+k] for i in range(0, len(data), k)]` produces exactly
`⌈N/k⌉` batches; their concatenation in order is the input (no record
duplicated or dropped); every batch is a non-empty contiguous slice of
at most `k` records, and batch `m` is exactly `data[m*k : m*k+k]` (so
only the last batch can be shorter than `k`). -/
theorem C6_theorem {α : Type} (data : List α) (k : Nat) (hk : 1 ≤ k) :
    (pyBatches data k).flatten = data ∧
    (pyBatches data k).length = (data.length + k - 1) / k ∧
    (∀ b ∈ pyBatches data k, b ≠ [] ∧ b.length ≤ k) ∧
    (∀ m, m < (pyBatches data k).length →
      (pyBatches data k).getD m [] = (data.drop (m * k)).take k) := by
  have main : ∀ (n : Nat) (l : List α), l.length ≤ n →
      (pyBatches l k).flatten = l ∧
      (pyBatches l k).length = (l.length + k - 1) / k ∧
      (∀ b ∈ pyBatches l k, b ≠ [] ∧ b.length ≤ k) ∧
      (∀ m, m < (pyBatches l k).length →
        (pyBatches l k).getD m [] = (l.drop (m * k)).take k) := by
    intro n
    induction n with
    | zero =>
      intro l hl
      have : l = [] := List.length_eq_zero.mp (by omega)
      subst this
      refine ⟨by rw [pyBatches_nil]; rfl, ?_, ?_, ?_⟩
      · rw [pyBatches_nil]
        simp only [List.length_nil, Nat.zero_add]
        rw [Nat.div_eq_of_lt (by omega)]
      · rw [pyBatches_nil]; intro b hb; cases hb
      · rw [pyBatches_nil]; intro m hm; simp at hm
    | succ n ih =>
      intro l hl
      rcases eq_or_ne l [] with rfl | hne
      · refine ⟨by rw [pyBatches_nil]; rfl, ?_, ?_, ?_⟩
        · rw [pyBatches_nil]
          simp only [List.length_nil, Nat.zero_add]
          rw [Nat.div_eq_of_lt (by omega)]
        · rw [pyBatches_nil]; intro b hb; cases hb
        · rw [pyBatches_nil]; intro m hm; simp at hm
      · have hlen : 0 < l.length := List.length_pos.mpr hne
        have hrec := ih (l.drop k) (by rw [List.length_drop]; omega)
        rw [pyBatches_cons l k (by omega) hne]
        obtain ⟨hflat, hcount, hmem, hget⟩ := hrec
        refine ⟨?_, ?_, ?_, ?_⟩
        · rw [List.flatten_cons, hflat, List.take_append_drop]
        · rw [List.length_cons, hcount, List.length_drop]
          rcases Nat.lt_or_ge l.length k with hlt | hge
          · rw [show l.length - k + k - 1 = k - 1 by omega,
              Nat.div_eq_of_lt (by omega),
              Nat.div_eq_of_lt_le (by omega : 1 * k ≤ l.length + k - 1)
                (by omega : l.length + k - 1 < (1 + 1) * k)]
          · rw [show l.length - k + k - 1 = l.length - 1 by omega,
              show l.length + k - 1 = l.length - 1 + k by omega,
              Nat.add_div_right _ (by omega)]
        · intro b hb
          rcases List.mem_cons.mp hb with rfl | hb
          · constructor
            · intro hemp
              have hlen0 := congrArg List.length hemp
              rw [List.length_take, List.length_nil] at hlen0
              omega
            · rw [List.length_take]; omega
          · exact hmem b hb
        · intro m hm
          cases m with
          | zero => simp
          | succ m =>
            rw [List.getD_cons_succ]
            rw [List.length_cons] at hm
            rw [hget m (by omega), List.drop_drop]
            congr 2
            ring
  exact main data.length data le_rfl

/-- **C6** witness: seven records with `batch_size = 3` give
`⌈7/3⌉ = 3` contiguous batches concatenating back to the input. -/
theorem C6_theorem_witness :
    (pyBatches [10, 20, 30, 40, 50, 60, 70] 3).flatten = [10, 20, 30, 40, 50, 60, 70] ∧
    (pyBatches [10, 20, 30, 40, 50, 60, 70] 3).length =
      ([10, 20, 30, 40, 50, 60, 70].length + 3 - 1) / 3 ∧
    (∀ b ∈ pyBatches [10, 20, 30, 40, 50, 60, 70] 3, b ≠ [] ∧ b.length ≤ 3) ∧
    (∀ m, m < (pyBatches [10, 20, 30, 40, 50, 60, 70] 3).length →
      (pyBatches [10, 20, 30, 40, 50, 60, 70] 3).getD m [] =
        ([10, 20, 30, 40, 50, 60, 70].drop (m * 3)).take 3) :=
  C6_theorem [10, 20, 30, 40, 50, 60, 70] 3 (by decide)

/-! ## Reconciliation failures in `process_batch` (claim C2) -/

theorem processRow_counts (raw : String) (batch : List PRec) :
    ∀ (rows : List Json) (n : Nat),
      (((rows.enumFrom n).map (fun p => (processRow raw batch p.1 p.2).1)).flatten).length =
        batch.length *
          ((rows.filter (fun row => (elementsOf row).length == batch.length)).length) ∧
      (((rows.enumFrom n).map (fun p => (processRow raw batch p.1 p.2).2)).flatten).length =
        ((rows.filter (fun row => !((elementsOf row).length == batch.length))).length) := by
  intro rows
  induction rows with
  | nil => intro n; simp
  | cons r rs ih =>
    intro n
    have hcons : (r :: rs).enumFrom n = (n, r) :: rs.enumFrom (n + 1) := by
      simp [List.enumFrom]
    rw [hcons, List.map_cons, List.map_cons, List.flatten_cons, List.flatten_cons,
      List.length_append, List.length_append, (ih (n + 1)).1, (ih (n + 1)).2]
    by_cases hc : (elementsOf r).length = batch.length
    · have h1 : (processRow raw batch n r).1.length = batch.length := by
        unfold processRow
        rw [if_neg (by omega)]
        simp [hc]
      have h2 : (processRow raw batch n r).2.length = 0 := by
        unfold processRow
        rw [if_neg (by omega)]
        rfl
      rw [h1, h2, List.filter_cons, List.filter_cons]
      simp only [hc, beq_self_eq_true, Bool.not_true, if_pos, List.length_cons]
      constructor
      · ring
      · simp
    · have h1 : (processRow raw batch n r).1.length = 0 := by
        unfold processRow
        rw [if_pos (by omega)]
        rfl
      have h2 : (processRow raw batch n r).2.length = 1 := by
        unfold processRow
        rw [if_pos (by omega)]
        rfl
      rw [h1, h2, List.filter_cons, List.filter_cons]
      have hbeq : ((elementsOf r).length == batch.length) = false := by
        exact beq_false_of_ne hc
      simp only [hbeq, Bool.not_false, if_pos, if_neg, Bool.false_eq_true,
        not_false_eq_true, List.length_cons]
      constructor
      · omega
      · omega

theorem processRow_fail_batch (raw : String) (batch : List PRec) (i : Nat) (row : Json) :
    ∀ e ∈ (processRow raw batch i row).2, e.1 = batch := by
  intro e he
  simp only [processRow] at he
  split at he
  · rcases List.mem_cons.mp he with rfl | he
    · rfl
    · cases he
  · cases he

/-- **C2** (corrected).  (a) A rows-count mismatch is a full-batch
failure: zero output rows and exactly one failure-log call, naming the
whole batch.  (b) An elements-count mismatch, however, is handled per
row: each mismatching row adds one failure-log call (still naming the
whole batch) and contributes no output rows, while every well-shaped row
still emits one output row per destination.  (c) Every failure-log call
made by `process_batch` references all ids of the batch. -/
theorem C2_theorem (maxR base : Nat) (resp : Nat → HttpAttempt) (batch : List PRec) :
    (∀ data, (safe_api_call maxR base resp).1 = some data →
       (rowsOf data).length ≠ batch.length →
       process_batch maxR base resp batch =
         ([], [(batch, rowsMismatchMsg batch.length (rowsOf data).length)])) ∧
    (∀ data, (safe_api_call maxR base resp).1 = some data →
       (rowsOf data).length = batch.length →
       (process_batch maxR base resp batch).1.length =
         batch.length *
           ((rowsOf data).filter
             (fun row => (elementsOf row).length == batch.length)).length ∧
       (process_batch maxR base resp batch).2.length =
         ((rowsOf data).filter
           (fun row => !((elementsOf row).length == batch.length))).length) ∧
    (∀ e ∈ (process_batch maxR base resp batch).2, e.1 = batch) := by
  refine ⟨?_, ?_, ?_⟩
  · intro data hdata hlen
    unfold process_batch
    rw [hdata]
    simp only [hlen, if_pos, ne_eq, not_false_eq_true]
  · intro data hdata hlen
    unfold process_batch
    rw [hdata]
    simp only [ne_eq, hlen, not_true_eq_false, if_neg, ite_false]
    have hm := processRow_counts (dumps data) batch (rowsOf data) 0
    rw [show (rowsOf data).enumFrom 0 = (rowsOf data).enum from rfl] at hm
    constructor
    · rw [List.map_map]
      exact hm.1
    · rw [List.map_map]
      exact hm.2
  · intro e he
    unfold process_batch at he
    rcases hs : (safe_api_call maxR base resp).1 with _ | data
    · rw [hs] at he
      dsimp only at he
      rcases List.mem_cons.mp he with rfl | he
      · rfl
      · cases he
    · rw [hs] at he
      dsimp only at he
      by_cases hlen : (rowsOf data).length ≠ batch.length
      · rw [if_pos hlen] at he
        rcases List.mem_cons.mp he with rfl | he
        · rfl
        · cases he
      · rw [if_neg hlen] at he
        simp only [List.mem_flatten, List.mem_map] at he
        obtain ⟨l, ⟨⟨pr, ⟨p, hp, rfl⟩, rfl⟩, hel⟩⟩ := he
        exact processRow_fail_batch (dumps data) batch _ _ e hel

/-- **C2** witness: a 2-record batch answered with a single-row response
is a full-batch failure — no output rows and exactly the one
rows-mismatch failure call naming the whole batch. -/
theorem C2_theorem_witness :
    process_batch 5 2 (fun _ => some (200, Json.obj [("rows", Json.arr [Json.null])]))
        [⟨1, "o1", "d1"⟩, ⟨2, "o2", "d2"⟩] =
      ([], [([⟨1, "o1", "d1"⟩, ⟨2, "o2", "d2"⟩],
        rowsMismatchMsg [(⟨1, "o1", "d1"⟩ : PRec), ⟨2, "o2", "d2"⟩].length
          (rowsOf (Json.obj [("rows", Json.arr [Json.null])])).length)]) :=
  (C2_theorem 5 2 (fun _ => some (200, Json.obj [("rows", Json.arr [Json.null])]))
      [⟨1, "o1", "d1"⟩, ⟨2, "o2", "d2"⟩]).1
    (Json.obj [("rows", Json.arr [Json.null])]) rfl (by decide)

/-- **C2** counterexample: with 2 records, a response whose first row has
1 element (mismatch) but whose second row is well-shaped, the claim
predicts zero output rows; the code still emits the 2 rows of the
well-shaped response row. -/
theorem C2_counterexample :
    (process_batch 5 2
      (fun _ => some (200, Json.obj [("rows", Json.arr
        [Json.obj [("elements", Json.arr [Json.obj [("status", Json.str "OK")]])],
         Json.obj [("elements", Json.arr [Json.obj [("status", Json.str "OK")],
                                          Json.obj [("status", Json.str "OK")]])]])]))
      [⟨1, "o1", "d1"⟩, ⟨2, "o2", "d2"⟩]).1.length = 2 ∧ (2 : Nat) ≠ 0 := by
  exact ⟨rfl, by decide⟩

/-! ## Non-OK elements and raw-response embedding (claim C7) -/

/-- **C7** (confirmed).  For a well-shaped response matrix:
(a) no failure is logged, whatever the per-element statuses;
(b) every emitted row embeds the full raw JSON response text (it is a
suffix of the row's raw-output field);
(c) the row for every matrix position `(i, j)` — including positions
whose element status is not `"OK"` — is emitted;
(d) a non-`"OK"` element's row has empty distance/duration/traffic
fields and carries the provider status, followed by the raw response, in
its raw-output field. -/
theorem C7_theorem (maxR base : Nat) (resp : Nat → HttpAttempt) (batch : List PRec)
    (data : Json)
    (hdata : (safe_api_call maxR base resp).1 = some data)
    (hrows : (rowsOf data).length = batch.length)
    (hwell : ∀ row ∈ rowsOf data, (elementsOf row).length = batch.length) :
    (process_batch maxR base resp batch).2 = [] ∧
    (∀ out ∈ (process_batch maxR base resp batch).1,
       ∃ pre, out.raw_output = pre ++ dumps data) ∧
    (∀ i j, i < (rowsOf data).length →
       j < (elementsOf ((rowsOf data).getD i Json.null)).length →
       emitElem (dumps data) batch i j
         ((elementsOf ((rowsOf data).getD i Json.null)).getD j Json.null) ∈
         (process_batch maxR base resp batch).1) ∧
    (∀ el i j, (el.dGet "status" (Json.str "UNKNOWN")).isStrEq "OK" = false →
       (emitElem (dumps data) batch i j el).distance_text = "" ∧
       (emitElem (dumps data) batch i j el).duration_text = "" ∧
       (emitElem (dumps data) batch i j el).traffic_duration = "" ∧
       (emitElem (dumps data) batch i j el).raw_output =
         "Status: " ++ (el.dGet "status" (Json.str "UNKNOWN")).pyStr ++ " | " ++
           dumps data) := by
  have hpb : process_batch maxR base resp batch =
      ((((rowsOf data).enum.map
          (fun p => (processRow (dumps data) batch p.1 p.2).1)).flatten),
       (((rowsOf data).enum.map
          (fun p => (processRow (dumps data) batch p.1 p.2).2)).flatten)) := by
    unfold process_batch
    rw [hdata]
    dsimp only
    rw [if_neg (by omega), List.map_map, List.map_map]
    rfl
  have hrow : ∀ p ∈ (rowsOf data).enum,
      processRow (dumps data) batch p.1 p.2 =
        ((elementsOf p.2).enum.map
          (fun q => emitElem (dumps data) batch p.1 q.1 q.2), []) := by
    intro p hp
    have hmem := List.snd_mem_of_mem_enum hp
    unfold processRow
    rw [if_neg (by rw [hwell p.2 hmem]; omega)]
  refine ⟨?_, ?_, ?_, ?_⟩
  · rw [hpb]
    refine List.flatten_eq_nil_iff.mpr ?_
    intro l hl
    obtain ⟨p, hp, rfl⟩ := List.mem_map.mp hl
    rw [hrow p hp]
  · rw [hpb]
    intro out hout
    obtain ⟨l, hl, hmem⟩ := List.mem_flatten.mp hout
    obtain ⟨p, hp, rfl⟩ := List.mem_map.mp hl
    rw [hrow p hp] at hmem
    obtain ⟨q, _, rfl⟩ := List.mem_map.mp hmem
    unfold emitElem
    dsimp only
    split
    · exact ⟨"", rfl⟩
    · exact ⟨"Status: " ++ (q.2.dGet "status" (Json.str "UNKNOWN")).pyStr ++ " | ", rfl⟩
  · intro i j hi hj
    rw [hpb]
    refine List.mem_flatten.mpr ?_
    have hienum : i < (rowsOf data).enum.length := by
      rw [List.enum_length]
      exact hi
    refine ⟨((elementsOf ((rowsOf data).getD i Json.null)).enum.map
        (fun q => emitElem (dumps data) batch i q.1 q.2)), ?_, ?_⟩
    · refine List.mem_map.mpr ⟨(i, (rowsOf data).getD i Json.null), ?_, ?_⟩
      · rw [List.getD_eq_getElem _ _ hi, ← List.getElem_enum (l := rowsOf data) (h := hienum)]
        exact List.getElem_mem hienum
      · rw [hrow (i, (rowsOf data).getD i Json.null)]
        rw [List.getD_eq_getElem _ _ hi, ← List.getElem_enum (l := rowsOf data) (h := hienum)]
        exact List.getElem_mem hienum
    · have hjenum : j < (elementsOf ((rowsOf data).getD i Json.null)).enum.length := by
        rw [List.enum_length]
        exact hj
      refine List.mem_map.mpr
        ⟨(j, (elementsOf ((rowsOf data).getD i Json.null)).getD j Json.null), ?_, rfl⟩
      rw [List.getD_eq_getElem _ _ hj,
        ← List.getElem_enum (l := elementsOf ((rowsOf data).getD i Json.null)) (h := hjenum)]
      exact List.getElem_mem hjenum
  · intro el i j hst
    unfold emitElem
    rw [if_neg (by rw [hst]; exact Bool.false_ne_true)]
    exact ⟨rfl, rfl, rfl, rfl⟩

/-- **C7** witness: a concrete 2-by-2 response whose element (0,1) has
status `ZERO_RESULTS` yields no failure call, and the non-OK element's
row is still among the emitted rows. -/
theorem C7_theorem_witness :
    (process_batch 5 2 (fun _ => some (200, Json.obj [("rows", Json.arr
      [Json.obj [("elements", Json.arr
        [Json.obj [("status", Json.str "OK"),
                   ("distance", Json.obj [("text", Json.str "5 mi")]),
                   ("duration", Json.obj [("text", Json.str "10 mins")])],
         Json.obj [("status", Json.str "ZERO_RESULTS")]])],
       Json.obj [("elements", Json.arr
        [Json.obj [("status", Json.str "OK")],
         Json.obj [("status", Json.str "OK")]])]])])) [⟨1, "o1", "d1"⟩, ⟨2, "o2", "d2"⟩]).2 = [] ∧
    emitElem (dumps (Json.obj [("rows", Json.arr
      [Json.obj [("elements", Json.arr
        [Json.obj [("status", Json.str "OK"),
                   ("distance", Json.obj [("text", Json.str "5 mi")]),
                   ("duration", Json.obj [("text", Json.str "10 mins")])],
         Json.obj [("status", Json.str "ZERO_RESULTS")]])],
       Json.obj [("elements", Json.arr
        [Json.obj [("status", Json.str "OK")],
         Json.obj [("status", Json.str "OK")]])]])])) [⟨1, "o1", "d1"⟩, ⟨2, "o2", "d2"⟩] 0 1
        ((elementsOf ((rowsOf (Json.obj [("rows", Json.arr
      [Json.obj [("elements", Json.arr
        [Json.obj [("status", Json.str "OK"),
                   ("distance", Json.obj [("text", Json.str "5 mi")]),
                   ("duration", Json.obj [("text", Json.str "10 mins")])],
         Json.obj [("status", Json.str "ZERO_RESULTS")]])],
       Json.obj [("elements", Json.arr
        [Json.obj [("status", Json.str "OK")],
         Json.obj [("status", Json.str "OK")]])]])])).getD 0 Json.null)).getD 1 Json.null) ∈
      (process_batch 5 2 (fun _ => some (200, Json.obj [("rows", Json.arr
      [Json.obj [("elements", Json.arr
        [Json.obj [("status", Json.str "OK"),
                   ("distance", Json.obj [("text", Json.str "5 mi")]),
                   ("duration", Json.obj [("text", Json.str "10 mins")])],
         Json.obj [("status", Json.str "ZERO_RESULTS")]])],
       Json.obj [("elements", Json.arr
        [Json.obj [("status", Json.str "OK")],
         Json.obj [("status", Json.str "OK")]])]])])) [⟨1, "o1", "d1"⟩, ⟨2, "o2", "d2"⟩]).1 := by
  have h := C7_theorem 5 2 (fun _ => some (200, Json.obj [("rows", Json.arr
      [Json.obj [("elements", Json.arr
        [Json.obj [("status", Json.str "OK"),
                   ("distance", Json.obj [("text", Json.str "5 mi")]),
                   ("duration", Json.obj [("text", Json.str "10 mins")])],
         Json.obj [("status", Json.str "ZERO_RESULTS")]])],
       Json.obj [("elements", Json.arr
        [Json.obj [("status", Json.str "OK")],
         Json.obj [("status", Json.str "OK")]])]])])) [⟨1, "o1", "d1"⟩, ⟨2, "o2", "d2"⟩]
    (Json.obj [("rows", Json.arr
      [Json.obj [("elements", Json.arr
        [Json.obj [("status", Json.str "OK"),
                   ("distance", Json.obj [("text", Json.str "5 mi")]),
                   ("duration", Json.obj [("text", Json.str "10 mins")])],
         Json.obj [("status", Json.str "ZERO_RESULTS")]])],
       Json.obj [("elements", Json.arr
        [Json.obj [("status", Json.str "OK")],
         Json.obj [("status", Json.str "OK")]])]])]) rfl (by decide) (by decide)
  exact ⟨h.1, h.2.2.1 0 1 (by decide) (by decide)⟩

/-! ## Sequential dispatch order (claim C10) -/

theorem pyBatches_flatten {α : Type} (l : List α) (k : Nat) (hk : 1 ≤ k) :
    (pyBatches l k).flatten = l := by
  have main : ∀ (n : Nat) (l : List α), l.length ≤ n → (pyBatches l k).flatten = l := by
    intro n
    induction n with
    | zero =>
      intro l hl
      have : l = [] := List.length_eq_zero.mp (by omega)
      subst this
      rw [pyBatches_nil]
      rfl
    | succ n ih =>
      intro l hl
      rcases eq_or_ne l [] with rfl | hne
      · rw [pyBatches_nil]; rfl
      · rw [pyBatches_cons l k (by omega) hne, List.flatten_cons,
          ih (l.drop k) (by rw [List.length_drop]; have := List.length_pos.mpr hne; omega),
          List.take_append_drop]
  exact main l.length l le_rfl

theorem streamBatches_go_eq (k : Nat) (hk : 0 < k) :
    ∀ (l acc : List PRec), acc.length < k →
      streamBatches k acc l = pyBatches (acc ++ l) k := by
  intro l
  induction l with
  | nil =>
    intro acc hacc
    unfold streamBatches
    rw [List.append_nil]
    by_cases hemp : acc.isEmpty
    · rw [if_pos hemp]
      have : acc = [] := List.isEmpty_iff.mp hemp
      rw [this, pyBatches_nil]
    · rw [if_neg hemp]
      have hne : acc ≠ [] := fun h => by rw [h] at hemp; exact hemp rfl
      rw [pyBatches_cons acc k hk hne, List.take_of_length_le (by omega),
        List.drop_eq_nil_of_le (by omega), pyBatches_nil]
  | cons r rest ih =>
    intro acc hacc
    unfold streamBatches
    dsimp only
    by_cases hl : (acc ++ [r]).length = k
    · have hcons : acc ++ r :: rest = (acc ++ [r]) ++ rest := by
        rw [List.append_assoc]
        rfl
      have hR : pyBatches ((acc ++ [r]) ++ rest) k = (acc ++ [r]) :: pyBatches rest k := by
        rw [pyBatches_cons _ k hk (by simp), List.take_left' hl, List.drop_left' hl]
      rw [if_pos hl, ih [] (by simpa using hk), List.nil_append, hcons, hR]
    · have hlt : (acc ++ [r]).length < k := by
        rw [List.length_append, List.length_singleton]
        rw [List.length_append, List.length_singleton] at hl
        omega
      rw [if_neg hl, ih (acc ++ [r]) hlt, List.append_assoc]
      rfl

theorem streamBatches_eq (k : Nat) (hk : 0 < k) (records : List PRec) :
    streamBatches k [] records = pyBatches records k := by
  rw [streamBatches_go_eq k hk records [] (by simpa using hk), List.nil_append]

theorem fetch_distance_employees (ts : String) :
    ∀ (bs : List (List EmpRec)) (n : Nat) (resps : Nat → Option Json),
      (∀ i, i < bs.length → (resps (n + i)).isSome) →
      (((bs.enumFrom n).map
          (fun p => fetch_distance p.2 (resps p.1) ts)).flatten).map
            (fun r => r.employee) =
        bs.flatten.map (fun r => r.employee) := by
  intro bs
  induction bs with
  | nil => intro n resps _; rfl
  | cons b bs ih =>
    intro n resps h
    have hcons : (b :: bs).enumFrom n = (n, b) :: bs.enumFrom (n + 1) := by
      simp [List.enumFrom]
    rw [hcons, List.map_cons, List.flatten_cons, List.flatten_cons, List.map_append,
      List.map_append]
    have h0 : (resps n).isSome := by
      have := h 0 (by simp)
      rwa [Nat.add_zero] at this
    obtain ⟨j, hj⟩ := Option.isSome_iff_exists.mp h0
    have hone : (fetch_distance b (resps n) ts).map (fun r => r.employee) =
        b.map (fun r => r.employee) := by
      rw [hj]
      unfold fetch_distance
      rw [List.map_map]
      have := congrArg (List.map (fun r : EmpRec => r.employee)) (List.enum_map_snd b)
      rw [List.map_map] at this
      exact this
    rw [hone, ih (n + 1) resps (fun i hi => by
      have := h (i + 1) (by simpa using Nat.succ_lt_succ hi)
      rwa [show n + (i + 1) = n + 1 + i by omega] at this)]

/-- **C10** (corrected).  (a) In `Sign2.py`, the streamed batching plus
sequential dispatch means the output rows (and failure calls) are exactly
the per-batch results of the contiguous chunks of the input, concatenated
in chunk order — all rows of batch `i` precede all rows of batch `i+1`.
(b) In `Polaris.py`, when every batch's request returns a response, the
run yields exactly one output row per input record, in input order (the
employee column of the output equals the employee column of the input);
a batch whose request raises contributes zero rows. -/
theorem C10_theorem :
    (∀ (maxR base k : Nat) (resps : Nat → Nat → HttpAttempt) (records : List PRec),
       1 ≤ k →
       batch_and_process maxR base resps records k =
         ((((pyBatches records k).enum.map
             (fun p => (process_batch maxR base (resps p.1) p.2).1)).flatten),
          (((pyBatches records k).enum.map
             (fun p => (process_batch maxR base (resps p.1) p.2).2)).flatten))) ∧
    (∀ (data : List EmpRec) (k : Nat) (resps : Nat → Option Json) (ts : String),
       1 ≤ k → (∀ i, i < (pyBatches data k).length → (resps i).isSome) →
       (polaris_run data k resps ts).map (fun r => r.employee) =
         data.map (fun r => r.employee)) := by
  constructor
  · intro maxR base k resps records hk
    unfold batch_and_process
    rw [streamBatches_eq k (by omega) records]
    dsimp only
    rw [List.map_map, List.map_map]
    rfl
  · intro data k resps ts hk hresp
    unfold polaris_run
    rw [show (pyBatches data k).enum = (pyBatches data k).enumFrom 0 from rfl,
      fetch_distance_employees ts (pyBatches data k) 0 resps
        (fun i hi => by simpa using hresp i hi),
      pyBatches_flatten data k hk]

/-- **C10** witness: both behaviours at concrete inputs
(two records, `batch_size = 1`, all requests answered). -/
theorem C10_theorem_witness :
    batch_and_process 5 2 (fun _ _ => none) [⟨1, "o1", "d1"⟩, ⟨2, "o2", "d2"⟩] 1 =
      ((((pyBatches [(⟨1, "o1", "d1"⟩ : PRec), ⟨2, "o2", "d2"⟩] 1).enum.map
          (fun p => (process_batch 5 2 ((fun _ _ => none : Nat → Nat → HttpAttempt) p.1) p.2).1)).flatten),
       (((pyBatches [(⟨1, "o1", "d1"⟩ : PRec), ⟨2, "o2", "d2"⟩] 1).enum.map
          (fun p => (process_batch 5 2 ((fun _ _ => none : Nat → Nat → HttpAttempt) p.1) p.2).2)).flatten)) ∧
    (polaris_run [⟨"e1", "a", "b"⟩, ⟨"e2", "c", "d"⟩] 1
        (fun _ => some (Json.obj [])) "t").map (fun r => r.employee) =
      [(⟨"e1", "a", "b"⟩ : EmpRec), ⟨"e2", "c", "d"⟩].map (fun r => r.employee) :=
  ⟨C10_theorem.1 5 2 1 (fun _ _ => none) [⟨1, "o1", "d1"⟩, ⟨2, "o2", "d2"⟩] (by decide),
   C10_theorem.2 [⟨"e1", "a", "b"⟩, ⟨"e2", "c", "d"⟩] 1 (fun _ => some (Json.obj [])) "t"
     (by decide) (fun i _ => rfl)⟩

/-- **C10** counterexample: one input record whose batch request raises
produces zero output rows, not one row per input record. -/
theorem C10_counterexample :
    polaris_run [⟨"e", "a", "b"⟩] 1 (fun _ => none) "t" = [] ∧
    [(⟨"e", "a", "b"⟩ : EmpRec)].length = 1 := by
  constructor
  · have hb : pyBatches [(⟨"e", "a", "b"⟩ : EmpRec)] 1 = [[⟨"e", "a", "b"⟩]] := by
      rw [pyBatches_cons _ _ (by omega) (by simp)]
      simp [pyBatches_nil]
    unfold polaris_run
    rw [hb]
    rfl
  · rfl

/-! ## The URL signer (claim C5) -/

theorem b64Char_ne_plus_slash (v : Nat) : b64Char v ≠ '+' ∧ b64Char v ≠ '/' := by
  have h : v % 64 < 64 := Nat.mod_lt _ (by omega)
  have hb : b64Char v = b64Char (v % 64) := by
    unfold b64Char
    rw [Nat.mod_mod]
  rw [hb]
  exact (by decide : ∀ w < 64, b64Char w ≠ '+' ∧ b64Char w ≠ '/') (v % 64) h

theorem b64EncChars_ne_plus_slash :
    ∀ bs : List Nat, ∀ c ∈ b64EncChars bs, c ≠ '+' ∧ c ≠ '/' := by
  intro bs
  induction bs using b64EncChars.induct with
  | case1 => intro c hc; cases hc
  | case2 a =>
    intro c hc
    unfold b64EncChars at hc
    simp only [List.mem_cons, List.not_mem_nil, or_false] at hc
    rcases hc with rfl | rfl | rfl | rfl
    · exact b64Char_ne_plus_slash _
    · exact b64Char_ne_plus_slash _
    · exact ⟨by decide, by decide⟩
    · exact ⟨by decide, by decide⟩
  | case3 a b =>
    intro c hc
    unfold b64EncChars at hc
    simp only [List.mem_cons, List.not_mem_nil, or_false] at hc
    rcases hc with rfl | rfl | rfl | rfl
    · exact b64Char_ne_plus_slash _
    · exact b64Char_ne_plus_slash _
    · exact b64Char_ne_plus_slash _
    · exact ⟨by decide, by decide⟩
  | case4 a b cc rest ih =>
    intro c hc
    unfold b64EncChars at hc
    simp only [List.mem_cons] at hc
    rcases hc with rfl | rfl | rfl | rfl | h
    · exact b64Char_ne_plus_slash _
    · exact b64Char_ne_plus_slash _
    · exact b64Char_ne_plus_slash _
    · exact b64Char_ne_plus_slash _
    · exact ih c h

theorem pyReplaceChar_id (s : String) (a b : Char)
    (h : ∀ c ∈ s.data, c ≠ a) : pyReplaceChar s a b = s := by
  obtain ⟨d⟩ := s
  unfold pyReplaceChar
  have hm : d.map (fun c => if c = a then b else c) = d := by
    have := List.map_congr_left (l := d)
      (f := fun c => if c = a then b else c) (g := id)
      (fun c hc => by
        show (if c = a then b else c) = id c
        rw [if_neg (h c hc)]
        rfl)
    rw [this, List.map_id]
  rw [show (String.mk d).data = d from rfl, hm]

theorem safe_signature_eq (bytes : List Nat) :
    pyReplaceChar (pyReplaceChar (b64urlEncode bytes) '+' '-') '/' '_' =
      b64urlEncode bytes := by
  have h1 : pyReplaceChar (b64urlEncode bytes) '+' '-' = b64urlEncode bytes :=
    pyReplaceChar_id _ _ _ (fun c hc => (b64EncChars_ne_plus_slash bytes c hc).1)
  rw [h1]
  exact pyReplaceChar_id _ _ _ (fun c hc => (b64EncChars_ne_plus_slash bytes c hc).2)

/-- **C5** (confirmed).  For every URL that `urlparse` splits into
scheme/netloc/path/query (no params, no fragment) and that is the plain
recombination of those parts, `sign_url url secret` is the original URL
with `&signature=` followed by the url-safe base64 encoding of the
HMAC-SHA1 digest keyed with the base64url-decoded secret over the UTF-8
bytes of `path + "?" + query` — scheme and host excluded from the signed
material.  The function is pure, so the same inputs always produce this
same byte-identical result. -/
theorem C5_theorem (url secret sch nl p q : String)
    (hparse : urlparse url = ⟨sch, nl, p, "", q, ""⟩)
    (hurl : url = sch ++ "://" ++ nl ++ p ++ "?" ++ q) :
    sign_url url secret = url ++ "&signature=" ++ spec_signature p q secret := by
  unfold sign_url spec_signature
  rw [hparse]
  dsimp only
  rw [safe_signature_eq, hurl]

/-- **C5** witness: the distance-matrix URL of `Sign2.py` with a concrete
base64url secret. -/
theorem C5_theorem_witness :
    sign_url
        "https://maps.googleapis.com/maps/api/distancematrix/json?origins=A&destinations=B&key=K"
        "c2VjcmV0" =
      "https://maps.googleapis.com/maps/api/distancematrix/json?origins=A&destinations=B&key=K"
        ++ "&signature=" ++
        spec_signature "/maps/api/distancematrix/json"
          "origins=A&destinations=B&key=K" "c2VjcmV0" :=
  C5_theorem
    "https://maps.googleapis.com/maps/api/distancematrix/json?origins=A&destinations=B&key=K"
    "c2VjcmV0" "https" "maps.googleapis.com" "/maps/api/distancematrix/json"
    "origins=A&destinations=B&key=K" (by decide) (by decide)

end DM
